import Mathlib

/-!
Verification of the cache-aside fetch-or-wait coordinator of `server.py`
(repository kimjune01/linky).

The embedding models the file system under `~/Desktop/temp` as a map from
path strings to optional content (`FS`), and records every externally visible
effect of an operation (file checks, poll sleeps, browser triggers, file
removals, directory listings) as an explicit `Event` trace.  Python string
primitives (`str.strip`, `str.splitlines`, `urllib.parse.quote`,
`urllib.parse.unquote`) are modelled over `List Char`; the modelled subset is
exact for the ASCII inputs and ordinary line endings exercised here, and the
relevant caveats are noted at each definition.
-/

/-- Python whitespace characters stripped by `str.strip()` (the ASCII subset;
Python also strips some further Unicode whitespace, which never occurs in the
contents considered here). -/
def isPyWS (c : Char) : Bool :=
  c == ' ' || c == '\t' || c == '\n' || c == '\r' || c == '\x0b' || c == '\x0c'

/-- Python `str.strip()`: drop leading and trailing whitespace. -/
def pyStrip (s : List Char) : List Char :=
  ((s.dropWhile isPyWS).reverse.dropWhile isPyWS).reverse

/-- Worker for `pySplitlines`: accumulates the current (reversed) line. -/
def pySplitlinesAux : List Char → List Char → List (List Char)
  | [], acc => if acc.isEmpty then [] else [acc.reverse]
  | '\r' :: '\n' :: rest, acc => acc.reverse :: pySplitlinesAux rest []
  | '\n' :: rest, acc => acc.reverse :: pySplitlinesAux rest []
  | '\r' :: rest, acc => acc.reverse :: pySplitlinesAux rest []
  | c :: rest, acc => pySplitlinesAux rest (c :: acc)

/-- Python `str.splitlines()`: split on line boundaries, dropping the
terminators; a trailing terminator does not contribute an empty final line.
Interior empty lines DO appear in the result (this matters for freshness).
Modelled boundaries: LF, CR, CRLF (Python additionally splits on rarer
Unicode separators, not used here). -/
def pySplitlines (s : List Char) : List (List Char) :=
  pySplitlinesAux s []

/-- Line count used by `server.py` everywhere a file is judged complete:
`len(result.strip().splitlines())` (lines 29 and 60 and 97). -/
def lineCount (s : String) : Nat :=
  (pySplitlines (pyStrip s.data)).length

/-- Value of a hexadecimal digit, accepting both cases, as `urllib.parse.unquote`
does. -/
def hexVal (c : Char) : Option Nat :=
  if '0' ≤ c ∧ c ≤ '9' then some (c.toNat - 48)
  else if 'a' ≤ c ∧ c ≤ 'f' then some (c.toNat - 87)
  else if 'A' ≤ c ∧ c ≤ 'F' then some (c.toNat - 55)
  else none

/-- Uppercase hexadecimal digit, as emitted by `urllib.parse.quote`. -/
def hexDigitU (n : Nat) : Char :=
  if n < 10 then Char.ofNat (48 + n) else Char.ofNat (55 + n)

/-- UTF-8 encoding of one code point. -/
def utf8Bytes (c : Char) : List Nat :=
  let n := c.toNat
  if n < 0x80 then [n]
  else if n < 0x800 then [0xC0 + n / 0x40, 0x80 + n % 0x40]
  else if n < 0x10000 then
    [0xE0 + n / 0x1000, 0x80 + (n / 0x40) % 0x40, 0x80 + n % 0x40]
  else
    [0xF0 + n / 0x40000, 0x80 + (n / 0x1000) % 0x40, 0x80 + (n / 0x40) % 0x40,
     0x80 + n % 0x40]

/-- Percent-encoding of one byte: `%XX` with uppercase hex. -/
def quoteByte (b : Nat) : List Char :=
  ['%', hexDigitU (b / 16), hexDigitU (b % 16)]

/-- Characters `urllib.parse.quote` leaves unencoded with its default
`safe` setting: unreserved characters plus the slash. -/
def isQuoteSafe (c : Char) : Bool :=
  decide (('A' ≤ c ∧ c ≤ 'Z') ∨ ('a' ≤ c ∧ c ≤ 'z') ∨ ('0' ≤ c ∧ c ≤ '9') ∨
     c = '_' ∨ c = '.' ∨ c = '-' ∨ c = '~' ∨ c = '/')

/-- Encoding of one character by `urllib.parse.quote`. -/
def pyQuoteChar (c : Char) : List Char :=
  if isQuoteSafe c then [c] else ((utf8Bytes c).map quoteByte).flatten

/-- `urllib.parse.quote(s)` with the default `safe` setting. -/
def pyQuote (s : String) : String :=
  String.mk ((s.data.map pyQuoteChar).flatten)

/-- Tokenization step of `urllib.parse.unquote`, recursing on a fuel bound
(any fuel at least the input length is exact; each step consumes at least one
character): each valid `%XX` becomes a byte (`Sum.inr`), every other
character passes through literally (`Sum.inl`); a `%` not followed by two
hex digits stays literal, exactly as in CPython. -/
def unquoteTokensF : Nat → List Char → List (Sum Char Nat)
  | _, [] => []
  | 0, l => l.map Sum.inl
  | fuel + 1, '%' :: rest =>
    match rest with
    | h1 :: h2 :: rest2 =>
      match hexVal h1, hexVal h2 with
      | some a, some b => Sum.inr (16 * a + b) :: unquoteTokensF fuel rest2
      | _, _ => Sum.inl '%' :: unquoteTokensF fuel rest
    | _ => Sum.inl '%' :: unquoteTokensF fuel rest
  | fuel + 1, c :: rest => Sum.inl c :: unquoteTokensF fuel rest

/-- Tokenization of `urllib.parse.unquote` at adequate fuel. -/
def unquoteTokens (l : List Char) : List (Sum Char Nat) :=
  unquoteTokensF l.length l

/-- Unicode replacement character. -/
def replChar : Char := Char.ofNat 0xFFFD

/-- Whether a byte is a UTF-8 continuation byte. -/
def isCont (b : Nat) : Bool := decide (0x80 ≤ b ∧ b < 0xC0)

/-- UTF-8 decoding with replacement (`errors="replace"`), as used by
`urllib.parse.unquote`, recursing on a fuel bound (any fuel at least the
input length is exact; each step consumes at least one byte).  Exact on
valid UTF-8 (in particular on all ASCII); on malformed input,
replacement-character placement approximates CPython. -/
def utf8DecodeF : Nat → List Nat → List Char
  | _, [] => []
  | 0, _ => [replChar]
  | fuel + 1, b :: rest =>
    if b < 0x80 then Char.ofNat b :: utf8DecodeF fuel rest
    else if b < 0xC2 then replChar :: utf8DecodeF fuel rest
    else if b < 0xE0 then
      match rest with
      | b1 :: rest2 =>
        if isCont b1 then Char.ofNat ((b - 0xC0) * 0x40 + (b1 - 0x80)) :: utf8DecodeF fuel rest2
        else replChar :: utf8DecodeF fuel rest
      | [] => [replChar]
    else if b < 0xF0 then
      match rest with
      | b1 :: b2 :: rest3 =>
        if isCont b1 && isCont b2 then
          Char.ofNat ((b - 0xE0) * 0x1000 + (b1 - 0x80) * 0x40 + (b2 - 0x80))
            :: utf8DecodeF fuel rest3
        else replChar :: utf8DecodeF fuel rest
      | _ => [replChar]
    else
      match rest with
      | b1 :: b2 :: b3 :: rest4 =>
        if isCont b1 && isCont b2 && isCont b3 then
          Char.ofNat ((b - 0xF0) * 0x40000 + (b1 - 0x80) * 0x1000 + (b2 - 0x80) * 0x40
            + (b3 - 0x80)) :: utf8DecodeF fuel rest4
        else replChar :: utf8DecodeF fuel rest
      | _ => [replChar]

/-- UTF-8 decoding with replacement at adequate fuel. -/
def utf8Decode (l : List Nat) : List Char :=
  utf8DecodeF l.length l

/-- Worker for `pyUnquote`: groups maximal runs of decoded bytes and
UTF-8-decodes each run; `acc` holds the current run in reverse. -/
def regroupAux : List Nat → List (Sum Char Nat) → List Char
  | acc, [] => utf8Decode acc.reverse
  | acc, Sum.inl c :: rest => utf8Decode acc.reverse ++ c :: regroupAux [] rest
  | acc, Sum.inr b :: rest => regroupAux (b :: acc) rest

/-- `urllib.parse.unquote(s)`.  Total: CPython `unquote` never raises (the
`try/except` around it at `server.py` line 163 is unreachable dead code). -/
def pyUnquote (s : String) : String :=
  String.mk (regroupAux [] (unquoteTokens s.data))

/-- The cache store: the directory `~/Desktop/temp`, as a map from path
strings to optional file content.  (`os.path.expanduser` is modelled as the
identity on the `~`-prefixed path: home resolution is environment
configuration and every operation resolves the same prefix.) -/
def FS : Type := String → Option String

/-- Externally visible effects of the operations of `server.py`, in program
order.  `check` is the `os.path.exists` test together with the read that
follows it on existence; `sleep` is `asyncio.sleep(2)`; `trigger` is
`webbrowser.open_new(url)`; `remove` is `os.remove(path)`; `listDir` is a
`glob.glob` directory listing. -/
inductive Event : Type where
  | check : String → Event
  | sleep : Event
  | trigger : String → Event
  | remove : String → Event
  | listDir : Event
deriving DecidableEq

/-- The file test shared by `scrape_linkedin_profile` (lines 57-61),
`search_linkedin_people` (lines 94-98) and the poll loop of `wait_for_file`
(lines 26-31): the file exists and its content has at least `min_lines`
lines after trimming; returns the content on success. -/
def pollCheck (fs : FS) (file_path : String) (min_lines : Nat) : Option String :=
  match fs file_path with
  | some content => if lineCount content < min_lines then none else some content
  | none => none

/-- Freshness of a cache entry: the file test succeeds. -/
def hasFresh (fs : FS) (file_path : String) (min_lines : Nat) : Bool :=
  (pollCheck fs file_path min_lines).isSome

/-- Freshness as the specification words it (spec section 4.1): the entry
exists and its content, after trimming, has at least `min_lines` NON-EMPTY
lines.  Stated only to compare against `hasFresh`, which `server.py`
actually computes. -/
def spec_has_fresh (fs : FS) (file_path : String) (min_lines : Nat) : Bool :=
  match fs file_path with
  | some content =>
    decide (min_lines ≤ ((pySplitlines (pyStrip content.data)).filter
      (fun l => !l.isEmpty)).length)
  | none => false

/-- The timeout message of `wait_for_file` (lines 32-34):
`f"File not found or incomplete after {max_wait} seconds. file_path: {file_path}"`. -/
def timeoutMsg (file_path : String) (max_wait : Int) : String :=
  "File not found or incomplete after " ++ toString max_wait ++
    " seconds. file_path: " ++ file_path

/-- Prefix one poll iteration (sleep, then file check) onto a result. -/
def consTrace (r : String × List Event) (file_path : String) : String × List Event :=
  (r.1, Event.sleep :: Event.check file_path :: r.2)

/-- Prefix the initial cache check and the browser trigger onto a result. -/
def consTrig (r : String × List Event) (file_path url : String) : String × List Event :=
  (r.1, Event.check file_path :: Event.trigger url :: r.2)

/-- Loop of `wait_for_file` (lines 22-34).  `env i` is the state of the file
system observed at the wake after the `i`-th sleep (the store is written
only by the out-of-process producer, so it may differ between wakes);
`waited` is the elapsed-seconds counter of the source, incremented by 2 per
iteration.  The loop runs while `waited < max_wait`; each iteration sleeps
2 seconds and then re-tests the file, returning its content when the test
succeeds. -/
def wait_go (env : Nat → FS) (file_path : String) (min_lines : Nat)
    (max_wait waited : Int) (i : Nat) : String × List Event :=
  if _h : waited < max_wait then
    match pollCheck (env i) file_path min_lines with
    | some content => (content, [Event.sleep, Event.check file_path])
    | none => consTrace (wait_go env file_path min_lines max_wait (waited + 2) (i + 1)) file_path
  else (timeoutMsg file_path max_wait, [])
  termination_by (max_wait - waited).toNat
  decreasing_by simp_wf; omega

/-- `wait_for_file(file_path, min_lines, max_wait)` (lines 20-34), from
`waited = 0`. -/
def wait_for_file (env : Nat → FS) (file_path : String) (min_lines : Nat)
    (max_wait : Int) : String × List Event :=
  wait_go env file_path min_lines max_wait 0 0

/-- Cache path of a profile handle (line 55). -/
def profile_path (handle : String) : String :=
  "~/Desktop/temp/" ++ handle ++ ".md"

/-- Profile URL opened on a cache miss (line 62). -/
def profile_url (handle : String) : String :=
  "https://www.linkedin.com/in/" ++ handle

/-- `scrape_linkedin_profile(handle)` (lines 37-64): check the cache file;
on a fresh hit return its content; otherwise open the profile URL and wait
for the file with `min_lines=20, max_wait=10`. -/
def scrape_linkedin_profile (env : Nat → FS) (fs0 : FS) (handle : String) :
    String × List Event :=
  match pollCheck fs0 (profile_path handle) 20 with
  | some content => (content, [Event.check (profile_path handle)])
  | none =>
    consTrig (wait_for_file env (profile_path handle) 20 10)
      (profile_path handle) (profile_url handle)

/-- Cache filename of a search (line 91):
`f"{encoded_query}_page{page}.txt" if query else "search.txt"`. -/
def search_filename (query : String) (page : Int) : String :=
  if query = "" then "search.txt"
  else pyQuote query ++ "_page" ++ toString page ++ ".txt"

/-- Cache path of a search (line 92). -/
def search_path (query : String) (page : Int) : String :=
  "~/Desktop/temp/" ++ search_filename query page

/-- Search URL opened on a cache miss (lines 99-103); the `page` parameter
is appended only when `page > 1`. -/
def search_url (query : String) (page : Int) : String :=
  let base := "https://www.linkedin.com/search/results/people/?keywords=" ++
    pyQuote query ++ "&sid=qAl"
  if 1 < page then base ++ "&page=" ++ toString page else base

/-- `search_linkedin_people(query, page=1)` (lines 67-105): check the cache
file; on a fresh hit return its content; otherwise open the search URL and
wait for the file with `min_lines=2, max_wait=20`. -/
def search_linkedin_people (env : Nat → FS) (fs0 : FS) (query : String)
    (page : Int) : String × List Event :=
  match pollCheck fs0 (search_path query page) 2 with
  | some content => (content, [Event.check (search_path query page)])
  | none =>
    consTrig (wait_for_file env (search_path query page) 2 20)
      (search_path query page) (search_url query page)

/-- Python list slicing `l[start:stop]` for arbitrary integer bounds
(used at line 171). -/
def pySlice {α : Type} (l : List α) (start stop : Int) : List α :=
  let n : Int := l.length
  let s := if start < 0 then (if n + start < 0 then 0 else n + start)
           else (if start ≤ n then start else n)
  let e := if stop < 0 then (if n + stop < 0 then 0 else n + stop)
           else (if stop ≤ n then stop else n)
  (l.drop s.toNat).take (e - s).toNat

/-- Python `str.endswith(suffix)`. -/
def pyEndsWith (s suffix : String) : Bool :=
  List.isSuffixOf suffix.data s.data

/-- Python `s[:-n]` for positive `n`: drop the last `n` characters (empty
when `n` is at least the length). -/
def pyDropLast (s : String) (n : Nat) : String :=
  String.mk (s.data.take (s.data.length - n))

/-- Query extraction of `list_linkedin_search_queries` (lines 158-167):
from each basename ending in `.txt`, drop the extension (`base[:-4]`) and
URL-decode the remainder.  (`pyUnquote` is total, so the skip-on-error
clause of the source never fires; no name is skipped.) -/
def decodeQueries (txt_files : List String) : List String :=
  txt_files.filterMap (fun base =>
    if pyEndsWith base ".txt" then some (pyUnquote (pyDropLast base 4)) else none)

/-- `list_linkedin_search_queries(page=1, page_size=10)` (lines 134-171).
`txt_files` is the list of basenames produced by `glob.glob` over
`~/Desktop/temp/*.txt`, in enumeration order.  Returns the 1-based page
slice of the decoded query list and the (read-only) directory-listing
trace. -/
def list_linkedin_search_queries (txt_files : List String)
    (page page_size : Int) : List String × List Event :=
  (pySlice (decodeQueries txt_files) ((page - 1) * page_size)
    ((page - 1) * page_size + page_size), [Event.listDir])

/-- The cache directory path (line 122). -/
def temp_dir : String := "~/Desktop/temp"

/-- The result message of `clear_temp_cache` (line 131). -/
def clearMsg (deleted : Nat) : String :=
  "Deleted " ++ toString deleted ++ " files from " ++ temp_dir ++ "."

/-- Deletion sweep of `clear_temp_cache` (lines 124-130): try to remove each
file in turn; a success increments the counter and removes the file, a
failure is swallowed (`except: pass`), is not counted, and the sweep
continues with the remaining files.  `ok f` says whether `os.remove(f)`
succeeds.  Returns the count and the trace of successful removals in sweep
order. -/
def clear_sweep (ok : String → Bool) : List String → Nat × List Event
  | [] => (0, [])
  | f :: rest =>
    let r := clear_sweep ok rest
    if ok f then (r.1 + 1, Event.remove f :: r.2) else (r.1, r.2)

/-- `clear_temp_cache()` (lines 108-131).  `files` is the listing produced
by `glob.glob` over `~/Desktop/temp/*`, in enumeration order. -/
def clear_temp_cache (files : List String) (ok : String → Bool) :
    String × List Event :=
  (clearMsg (clear_sweep ok files).1, (clear_sweep ok files).2)

/-- Whether an event is a poll-sleep. -/
def isSleep : Event → Bool
  | Event.sleep => true
  | _ => false

/-- Whether an event is a browser trigger. -/
def isTrig : Event → Bool
  | Event.trigger _ => true
  | _ => false

/-- Whether an event is a file removal. -/
def isRemove : Event → Bool
  | Event.remove _ => true
  | _ => false

/-- Whether an event belongs to a poll loop (sleep or file check). -/
def isPollEvent : Event → Bool
  | Event.sleep => true
  | Event.check _ => true
  | _ => false

/-- Whether an event leaves the cache store unchanged (everything except a
removal). -/
def isReadOnly : Event → Bool
  | Event.remove _ => false
  | _ => true

/-- Number of poll sleeps in a trace. -/
def countSleeps (tr : List Event) : Nat := tr.countP isSleep

/-- Number of browser triggers in a trace. -/
def countTrigs (tr : List Event) : Nat := tr.countP isTrig

/-- Number of file removals in a trace. -/
def countRemoves (tr : List Event) : Nat := tr.countP isRemove

/-- Effect of one event on the cache store: a removal deletes the entry,
every other event is a read or an external side effect. -/
def applyEvent (fs : FS) : Event → FS
  | Event.remove p => fun q => if q = p then none else fs q
  | _ => fs

/-- Effect of a whole trace on the cache store, in order. -/
def applyTrace (fs : FS) (tr : List Event) : FS :=
  tr.foldl applyEvent fs

/-- Modelled from the spec: `scrape_multiple_linkedin_profiles` is exercised
by `test_scrape_multiple_linkedin_profiles.py` but absent from the revision
of `server.py` in the repository, so its body is modelled from spec section
4.4: one Coordinator per input element, all launched together and advanced
concurrently (cooperative scheduling: at every 2-second tick each
still-sleeping Coordinator wakes once), the batch returning only when all
are done.  One scheduler tick decrements every pending sleep count. -/
def stepAll {α : Type} (ts : List (Nat × α)) : List (Nat × α) :=
  ts.map (fun t => (t.1 - 1, t.2))

/-- Whether every task of a batch has finished sleeping. -/
def allDone {α : Type} (ts : List (Nat × α)) : Bool :=
  ts.all (fun t => t.1 == 0)

/-- Largest remaining sleep count of a batch. -/
def maxRem {α : Type} (ts : List (Nat × α)) : Nat :=
  ts.foldr (fun t acc => max t.1 acc) 0

theorem maxRem_cons {α : Type} (t : Nat × α) (ts : List (Nat × α)) :
    maxRem (t :: ts) = max t.1 (maxRem ts) := rfl

theorem allDone_cons {α : Type} (t : Nat × α) (ts : List (Nat × α)) :
    allDone (t :: ts) = (t.1 == 0 && allDone ts) := by
  simp [allDone]

theorem maxRem_stepAll {α : Type} (ts : List (Nat × α)) :
    maxRem (stepAll ts) = maxRem ts - 1 := by
  induction ts with
  | nil => rfl
  | cons t ts ih =>
    show maxRem ((t.1 - 1, t.2) :: stepAll ts) = _
    rw [maxRem_cons, maxRem_cons, ih]
    omega

theorem maxRem_pos {α : Type} (ts : List (Nat × α))
    (h : ¬ allDone ts = true) : 0 < maxRem ts := by
  induction ts with
  | nil => simp [allDone] at h
  | cons t ts ih =>
    rw [allDone_cons] at h
    rw [maxRem_cons]
    rcases Nat.eq_zero_or_pos t.1 with h0 | h0
    · have hts : ¬ allDone ts = true := by
        intro hall; apply h; simp [h0, hall]
      have := ih hts
      omega
    · omega

/-- Modelled from the spec: concurrent fan-out/fan-in over a task list.
Each task is a pending sleep count paired with its final outcome; every
tick advances all unfinished tasks at once, and the batch returns the tick
count at which all tasks have finished together with every outcome. -/
def runSched {α : Type} (ts : List (Nat × α)) : Nat × List α :=
  if h : allDone ts = true then (0, ts.map (fun t => t.2))
  else
    let r := runSched (stepAll ts)
    (r.1 + 1, r.2)
  termination_by maxRem ts
  decreasing_by
    simp_wf
    have h1 := maxRem_stepAll ts
    have h2 := maxRem_pos ts h
    omega

/-- Modelled from the spec: `scrape_multiple_linkedin_profiles(handles)`
(spec section 4.4 and the parallelism test): one
`scrape_linkedin_profile` Coordinator per list element, each with its own
poll environment `envs h` and the shared initial snapshot `fs0`, run
concurrently; the result pairs each caller-supplied handle with the outcome
of its own Coordinator, and the batch finishes after the largest individual
number of poll sleeps. -/
def scrape_multiple_linkedin_profiles (envs : String → Nat → FS) (fs0 : FS)
    (handles : List String) : Nat × List (String × String) :=
  runSched (handles.map (fun h =>
    (countSleeps (scrape_linkedin_profile (envs h) fs0 h).2,
     (h, (scrape_linkedin_profile (envs h) fs0 h).1))))

theorem wait_go_stop (env : Nat → FS) (p : String) (m : Nat) (mw w : Int)
    (i : Nat) (h : ¬ w < mw) :
    wait_go env p m mw w i = (timeoutMsg p mw, []) := by
  unfold wait_go
  rw [dif_neg h]

theorem wait_go_hit (env : Nat → FS) (p : String) (m : Nat) (mw w : Int)
    (i : Nat) (h : w < mw) (c : String) (hc : pollCheck (env i) p m = some c) :
    wait_go env p m mw w i = (c, [Event.sleep, Event.check p]) := by
  unfold wait_go
  rw [dif_pos h, hc]

theorem wait_go_miss (env : Nat → FS) (p : String) (m : Nat) (mw w : Int)
    (i : Nat) (h : w < mw) (hc : pollCheck (env i) p m = none) :
    wait_go env p m mw w i = consTrace (wait_go env p m mw (w + 2) (i + 1)) p := by
  conv_lhs => unfold wait_go
  rw [dif_pos h, hc]

theorem wait_go_never (env : Nat → FS) (p : String) (m : Nat) :
    ∀ (n : Nat) (mw w : Int) (i : Nat), (mw - w).toNat ≤ n →
      (∀ j, pollCheck (env j) p m = none) →
      (wait_go env p m mw w i).1 = timeoutMsg p mw := by
  intro n
  induction n with
  | zero =>
    intro mw w i hn hF
    rw [wait_go_stop env p m mw w i (by omega)]
  | succ n ih =>
    intro mw w i hn hF
    by_cases h : w < mw
    · rw [wait_go_miss env p m mw w i h (hF i)]
      show (wait_go env p m mw (w + 2) (i + 1)).1 = _
      exact ih mw (w + 2) (i + 1) (by omega) hF
    · rw [wait_go_stop env p m mw w i h]

theorem wait_go_sleeps (env : Nat → FS) (p : String) (m : Nat) :
    ∀ (n : Nat) (mw w : Int) (i : Nat), (mw - w).toNat ≤ n →
      countSleeps (wait_go env p m mw w i).2 ≤ ((mw - w).toNat + 1) / 2 := by
  intro n
  induction n with
  | zero =>
    intro mw w i hn
    rw [wait_go_stop env p m mw w i (by omega)]
    simp [countSleeps]
  | succ n ih =>
    intro mw w i hn
    by_cases h : w < mw
    · cases hc : pollCheck (env i) p m with
      | some c =>
        rw [wait_go_hit env p m mw w i h c hc]
        simp [countSleeps, List.countP_cons, isSleep]
        omega
      | none =>
        rw [wait_go_miss env p m mw w i h hc]
        have hr := ih mw (w + 2) (i + 1) (by omega)
        show countSleeps (Event.sleep :: Event.check p ::
          (wait_go env p m mw (w + 2) (i + 1)).2) ≤ _
        simp [countSleeps, List.countP_cons, isSleep] at *
        omega
    · rw [wait_go_stop env p m mw w i h]
      simp [countSleeps]

theorem wait_go_poll (env : Nat → FS) (p : String) (m : Nat) :
    ∀ (n : Nat) (mw w : Int) (i : Nat), (mw - w).toNat ≤ n →
      ((wait_go env p m mw w i).2).all isPollEvent = true := by
  intro n
  induction n with
  | zero =>
    intro mw w i hn
    rw [wait_go_stop env p m mw w i (by omega)]
    rfl
  | succ n ih =>
    intro mw w i hn
    by_cases h : w < mw
    · cases hc : pollCheck (env i) p m with
      | some c => rw [wait_go_hit env p m mw w i h c hc]; rfl
      | none =>
        rw [wait_go_miss env p m mw w i h hc]
        have hr := ih mw (w + 2) (i + 1) (by omega)
        show (Event.sleep :: Event.check p ::
          (wait_go env p m mw (w + 2) (i + 1)).2).all isPollEvent = true
        simp [List.all_cons, isPollEvent, hr]
    · rw [wait_go_stop env p m mw w i h]; rfl

theorem wait_trace_poll (env : Nat → FS) (p : String) (m : Nat) (mw : Int) :
    ((wait_for_file env p m mw).2).all isPollEvent = true :=
  wait_go_poll env p m (mw - 0).toNat mw 0 0 (le_refl _)

theorem all_poll_counts (tr : List Event) (h : tr.all isPollEvent = true) :
    countTrigs tr = 0 ∧ countRemoves tr = 0 := by
  induction tr with
  | nil => exact ⟨rfl, rfl⟩
  | cons e tr ih =>
    rw [List.all_cons, Bool.and_eq_true] at h
    obtain ⟨h1, h2⟩ := h
    obtain ⟨ih1, ih2⟩ := ih h2
    cases e <;>
      simp_all [countTrigs, countRemoves, List.countP_cons, isTrig, isRemove, isPollEvent]

theorem all_poll_readonly (tr : List Event) (h : tr.all isPollEvent = true) :
    tr.all isReadOnly = true := by
  induction tr with
  | nil => rfl
  | cons e tr ih =>
    rw [List.all_cons, Bool.and_eq_true] at h
    obtain ⟨h1, h2⟩ := h
    cases e <;> simp_all [isPollEvent, isReadOnly]

theorem all_readonly_removes (tr : List Event) (h : tr.all isReadOnly = true) :
    countRemoves tr = 0 := by
  induction tr with
  | nil => rfl
  | cons e tr ih =>
    rw [List.all_cons, Bool.and_eq_true] at h
    obtain ⟨h1, h2⟩ := h
    cases e <;> simp_all [countRemoves, List.countP_cons, isRemove, isReadOnly]

theorem all_readonly_apply (tr : List Event) (h : tr.all isReadOnly = true)
    (fs : FS) : applyTrace fs tr = fs := by
  induction tr generalizing fs with
  | nil => rfl
  | cons e tr ih =>
    rw [List.all_cons, Bool.and_eq_true] at h
    obtain ⟨h1, h2⟩ := h
    have he : applyEvent fs e = fs := by
      cases e <;> simp_all [applyEvent, isReadOnly]
    show applyTrace (applyEvent fs e) tr = fs
    rw [he]
    exact ih h2 fs

theorem scrape_hit (env : Nat → FS) (fs0 : FS) (handle : String) (c : String)
    (hc : pollCheck fs0 (profile_path handle) 20 = some c) :
    scrape_linkedin_profile env fs0 handle
      = (c, [Event.check (profile_path handle)]) := by
  unfold scrape_linkedin_profile
  rw [hc]

theorem scrape_miss (env : Nat → FS) (fs0 : FS) (handle : String)
    (hc : pollCheck fs0 (profile_path handle) 20 = none) :
    scrape_linkedin_profile env fs0 handle
      = consTrig (wait_for_file env (profile_path handle) 20 10)
          (profile_path handle) (profile_url handle) := by
  unfold scrape_linkedin_profile
  rw [hc]

theorem search_hit (env : Nat → FS) (fs0 : FS) (query : String) (page : Int)
    (c : String) (hc : pollCheck fs0 (search_path query page) 2 = some c) :
    search_linkedin_people env fs0 query page
      = (c, [Event.check (search_path query page)]) := by
  unfold search_linkedin_people
  rw [hc]

theorem search_miss (env : Nat → FS) (fs0 : FS) (query : String) (page : Int)
    (hc : pollCheck fs0 (search_path query page) 2 = none) :
    search_linkedin_people env fs0 query page
      = consTrig (wait_for_file env (search_path query page) 2 20)
          (search_path query page) (search_url query page) := by
  unfold search_linkedin_people
  rw [hc]

theorem scrape_trace_readonly (env : Nat → FS) (fs0 : FS) (handle : String) :
    ((scrape_linkedin_profile env fs0 handle).2).all isReadOnly = true := by
  cases hc : pollCheck fs0 (profile_path handle) 20 with
  | some c => rw [scrape_hit env fs0 handle c hc]; rfl
  | none =>
    rw [scrape_miss env fs0 handle hc]
    have hw := all_poll_readonly _ (wait_trace_poll env (profile_path handle) 20 10)
    show (Event.check _ :: Event.trigger _ ::
      (wait_for_file env (profile_path handle) 20 10).2).all isReadOnly = true
    simp [List.all_cons, isReadOnly, hw]

theorem search_trace_readonly (env : Nat → FS) (fs0 : FS) (query : String)
    (page : Int) :
    ((search_linkedin_people env fs0 query page).2).all isReadOnly = true := by
  cases hc : pollCheck fs0 (search_path query page) 2 with
  | some c => rw [search_hit env fs0 query page c hc]; rfl
  | none =>
    rw [search_miss env fs0 query page hc]
    have hw := all_poll_readonly _ (wait_trace_poll env (search_path query page) 2 20)
    show (Event.check _ :: Event.trigger _ ::
      (wait_for_file env (search_path query page) 2 20).2).all isReadOnly = true
    simp [List.all_cons, isReadOnly, hw]

theorem hasFresh_false_poll (fs : FS) (p : String) (m : Nat)
    (h : hasFresh fs p m = false) : pollCheck fs p m = none := by
  unfold hasFresh at h
  cases hc : pollCheck fs p m with
  | some c => rw [hc] at h; simp at h
  | none => rfl

theorem allDone_maxRem {α : Type} (ts : List (Nat × α))
    (h : allDone ts = true) : maxRem ts = 0 := by
  induction ts with
  | nil => rfl
  | cons t ts ih =>
    rw [allDone_cons, Bool.and_eq_true] at h
    obtain ⟨h1, h2⟩ := h
    rw [maxRem_cons, ih h2]
    simp at h1
    omega

theorem runSched_done {α : Type} (ts : List (Nat × α))
    (h : allDone ts = true) :
    runSched ts = (0, ts.map (fun t => t.2)) := by
  unfold runSched
  rw [dif_pos h]

theorem runSched_step {α : Type} (ts : List (Nat × α))
    (h : ¬ allDone ts = true) :
    runSched ts = ((runSched (stepAll ts)).1 + 1, (runSched (stepAll ts)).2) := by
  conv_lhs => unfold runSched
  rw [dif_neg h]

theorem stepAll_snd {α : Type} (ts : List (Nat × α)) :
    (stepAll ts).map (fun t => t.2) = ts.map (fun t => t.2) := by
  simp [stepAll, List.map_map, Function.comp]

theorem runSched_eq {α : Type} :
    ∀ (n : Nat) (ts : List (Nat × α)), maxRem ts ≤ n →
      runSched ts = (maxRem ts, ts.map (fun t => t.2)) := by
  intro n
  induction n with
  | zero =>
    intro ts hn
    have hd : allDone ts = true := by
      by_contra hC
      have := maxRem_pos ts hC
      omega
    rw [runSched_done ts hd, allDone_maxRem ts hd]
  | succ n ih =>
    intro ts hn
    by_cases hd : allDone ts = true
    · rw [runSched_done ts hd, allDone_maxRem ts hd]
    · rw [runSched_step ts hd]
      have h1 := maxRem_stepAll ts
      have h2 := maxRem_pos ts hd
      rw [ih (stepAll ts) (by omega), stepAll_snd]
      rw [h1]
      have : maxRem ts - 1 + 1 = maxRem ts := by omega
      rw [this]

theorem pySlice_nonneg {α : Type} (l : List α) (s ps : Int)
    (hs : 0 ≤ s) (hps : 0 ≤ ps) :
    pySlice l s (s + ps) = (l.drop s.toNat).take ps.toNat := by
  have hns : ¬ s < 0 := by omega
  have hne : ¬ s + ps < 0 := by omega
  simp only [pySlice, if_neg hns, if_neg hne]
  rcases le_or_lt s (l.length : Int) with hA | hB
  · rw [if_pos hA]
    rcases le_or_lt (s + ps) (l.length : Int) with hA1 | hA2
    · rw [if_pos hA1]
      congr 1
      omega
    · rw [if_neg (by omega)]
      have htake1 : (l.drop s.toNat).take ((l.length : Int) - s).toNat
          = l.drop s.toNat := by
        apply List.take_of_length_le
        simp only [List.length_drop]
        omega
      have htake2 : (l.drop s.toNat).take ps.toNat = l.drop s.toNat := by
        apply List.take_of_length_le
        simp only [List.length_drop]
        omega
      rw [htake1, htake2]
  · rw [if_neg (by omega), if_neg (by omega)]
    have h4 : l.drop s.toNat = [] := List.drop_eq_nil_of_le (by omega)
    rw [h4]
    simp

theorem clear_sweep_eq (ok : String → Bool) (files : List String) :
    clear_sweep ok files
      = ((files.filter ok).length, (files.filter ok).map Event.remove) := by
  induction files with
  | nil => rfl
  | cons f rest ih =>
    show (if ok f then ((clear_sweep ok rest).1 + 1,
        Event.remove f :: (clear_sweep ok rest).2)
      else ((clear_sweep ok rest).1, (clear_sweep ok rest).2)) = _
    cases hf : ok f with
    | true => simp [List.filter_cons, hf, ih]
    | false => simp [List.filter_cons, hf, ih]

/-- Claim C1: cache-hit short-circuit.  For every target, if the cache entry
for its key is fresh (the file exists and meets the operation-specific
minimum line count) at invocation, the coordinator (`scrape_linkedin_profile`
with threshold 20, `search_linkedin_people` with threshold 2) returns that
existing content with only the initial file check in its trace: the browser
trigger is never invoked and no poll sleep occurs. -/
theorem cache_hit_short_circuit (env : Nat → FS) (fs0 : FS)
    (handle query : String) (page : Int) (cp cs : String)
    (hp : fs0 (profile_path handle) = some cp) (hp20 : 20 ≤ lineCount cp)
    (hq : fs0 (search_path query page) = some cs) (hq2 : 2 ≤ lineCount cs) :
    scrape_linkedin_profile env fs0 handle
        = (cp, [Event.check (profile_path handle)])
    ∧ search_linkedin_people env fs0 query page
        = (cs, [Event.check (search_path query page)])
    ∧ countTrigs (scrape_linkedin_profile env fs0 handle).2 = 0
    ∧ countSleeps (scrape_linkedin_profile env fs0 handle).2 = 0
    ∧ countTrigs (search_linkedin_people env fs0 query page).2 = 0
    ∧ countSleeps (search_linkedin_people env fs0 query page).2 = 0 := by
  have hcp : pollCheck fs0 (profile_path handle) 20 = some cp := by
    unfold pollCheck
    rw [hp]
    show (if lineCount cp < 20 then none else some cp) = some cp
    rw [if_neg (by omega)]
  have hcs : pollCheck fs0 (search_path query page) 2 = some cs := by
    unfold pollCheck
    rw [hq]
    show (if lineCount cs < 2 then none else some cs) = some cs
    rw [if_neg (by omega)]
  have e1 := scrape_hit env fs0 handle cp hcp
  have e2 := search_hit env fs0 query page cs hcs
  refine ⟨e1, e2, ?_, ?_, ?_, ?_⟩ <;>
    first
      | (rw [e1]; rfl)
      | (rw [e2]; rfl)

/-- Witness for C1 at a concrete store holding a 20-line profile for handle
`a` and a 2-line search result for query `q`, page 1. -/
theorem cache_hit_short_circuit_witness :
    (fun p => if p = "~/Desktop/temp/a.md"
        then some (String.join (List.replicate 20 "x\n"))
        else if p = "~/Desktop/temp/q_page1.txt" then some "a\nb"
        else none) (profile_path "a")
      = some (String.join (List.replicate 20 "x\n"))
    ∧ 20 ≤ lineCount (String.join (List.replicate 20 "x\n"))
    ∧ 2 ≤ lineCount "a\nb"
    ∧ scrape_linkedin_profile (fun _ _ => none)
        (fun p => if p = "~/Desktop/temp/a.md"
          then some (String.join (List.replicate 20 "x\n"))
          else if p = "~/Desktop/temp/q_page1.txt" then some "a\nb"
          else none) "a"
      = (String.join (List.replicate 20 "x\n"), [Event.check (profile_path "a")])
    ∧ search_linkedin_people (fun _ _ => none)
        (fun p => if p = "~/Desktop/temp/a.md"
          then some (String.join (List.replicate 20 "x\n"))
          else if p = "~/Desktop/temp/q_page1.txt" then some "a\nb"
          else none) "q" 1
      = ("a\nb", [Event.check (search_path "q" 1)]) := by
  have h := cache_hit_short_circuit (fun _ _ => none)
    (fun p => if p = "~/Desktop/temp/a.md"
      then some (String.join (List.replicate 20 "x\n"))
      else if p = "~/Desktop/temp/q_page1.txt" then some "a\nb"
      else none) "a" "q" 1
    (String.join (List.replicate 20 "x\n")) "a\nb"
    (by decide) (by decide) (by decide) (by decide)
  exact ⟨by decide, by decide, by decide, h.1, h.2.1⟩

/-- Claim C2: deadline expiry is a value, not an exception.  If the cache
entry never becomes fresh at any poll wake, `wait_for_file` returns the
descriptive timeout string carrying the file path and the wait budget, and
the coordinators return the same string for their own path and budget; all
these operations are total Lean functions returning plain strings, so no
exceptional outcome exists. -/
theorem deadline_expiry_value (env : Nat → FS) (p : String) (m : Nat)
    (mw : Int) (fs0 : FS) (handle query : String) (page : Int)
    (hW : ∀ j, hasFresh (env j) p m = false)
    (hP : ∀ j, hasFresh (env j) (profile_path handle) 20 = false)
    (hP0 : hasFresh fs0 (profile_path handle) 20 = false)
    (hS : ∀ j, hasFresh (env j) (search_path query page) 2 = false)
    (hS0 : hasFresh fs0 (search_path query page) 2 = false) :
    (wait_for_file env p m mw).1 = timeoutMsg p mw
    ∧ (scrape_linkedin_profile env fs0 handle).1
        = timeoutMsg (profile_path handle) 10
    ∧ (search_linkedin_people env fs0 query page).1
        = timeoutMsg (search_path query page) 20
    ∧ timeoutMsg p mw = "File not found or incomplete after " ++ toString mw
        ++ " seconds. file_path: " ++ p := by
  refine ⟨?_, ?_, ?_, rfl⟩
  · exact wait_go_never env p m (mw - 0).toNat mw 0 0 (le_refl _)
      (fun j => hasFresh_false_poll _ _ _ (hW j))
  · rw [scrape_miss env fs0 handle (hasFresh_false_poll _ _ _ hP0)]
    show (wait_for_file env (profile_path handle) 20 10).1 = _
    exact wait_go_never env (profile_path handle) 20 (((10 : Int)) - 0).toNat 10 0 0
      (le_refl _) (fun j => hasFresh_false_poll _ _ _ (hP j))
  · rw [search_miss env fs0 query page (hasFresh_false_poll _ _ _ hS0)]
    show (wait_for_file env (search_path query page) 2 20).1 = _
    exact wait_go_never env (search_path query page) 2 (((20 : Int)) - 0).toNat 20 0 0
      (le_refl _) (fun j => hasFresh_false_poll _ _ _ (hS j))

/-- Witness for C2 at the empty store that never receives any file. -/
theorem deadline_expiry_value_witness :
    (∀ j : Nat, hasFresh ((fun _ _ => none) j) "f" 1 = false)
    ∧ (wait_for_file (fun _ _ => none) "f" 1 3).1 = timeoutMsg "f" 3
    ∧ (scrape_linkedin_profile (fun _ _ => none) (fun _ => none) "a").1
        = timeoutMsg (profile_path "a") 10
    ∧ (search_linkedin_people (fun _ _ => none) (fun _ => none) "q" 1).1
        = timeoutMsg (search_path "q" 1) 20 := by
  have h := deadline_expiry_value (fun _ _ => none) "f" 1 3 (fun _ => none)
    "a" "q" 1 (fun _ => rfl) (fun _ => rfl) rfl (fun _ => rfl) rfl
  exact ⟨fun _ => rfl, h.1, h.2.1, h.2.2.1⟩

/-- Claim C3: trigger exactly once with fixed ordering.  On a cache miss,
the trace of either coordinator is exactly the initial cache check, then
the single browser trigger, then the poll-loop trace; hence the trigger
fires exactly once, strictly after the initial cache check and strictly
before the first poll sleep, and the poll loop itself contains no trigger. -/
theorem trigger_once_ordering (env : Nat → FS) (fs0 : FS)
    (handle query : String) (page : Int)
    (hP0 : hasFresh fs0 (profile_path handle) 20 = false)
    (hS0 : hasFresh fs0 (search_path query page) 2 = false) :
    (scrape_linkedin_profile env fs0 handle).2
        = Event.check (profile_path handle) :: Event.trigger (profile_url handle)
            :: (wait_for_file env (profile_path handle) 20 10).2
    ∧ countTrigs (scrape_linkedin_profile env fs0 handle).2 = 1
    ∧ countTrigs (wait_for_file env (profile_path handle) 20 10).2 = 0
    ∧ (search_linkedin_people env fs0 query page).2
        = Event.check (search_path query page) :: Event.trigger (search_url query page)
            :: (wait_for_file env (search_path query page) 2 20).2
    ∧ countTrigs (search_linkedin_people env fs0 query page).2 = 1
    ∧ countTrigs (wait_for_file env (search_path query page) 2 20).2 = 0 := by
  have e1 := scrape_miss env fs0 handle (hasFresh_false_poll _ _ _ hP0)
  have e2 := search_miss env fs0 query page (hasFresh_false_poll _ _ _ hS0)
  have w1 := (all_poll_counts _ (wait_trace_poll env (profile_path handle) 20 10)).1
  have w2 := (all_poll_counts _ (wait_trace_poll env (search_path query page) 2 20)).1
  have w1' : List.countP isTrig (wait_for_file env (profile_path handle) 20 10).2 = 0 := w1
  have w2' : List.countP isTrig (wait_for_file env (search_path query page) 2 20).2 = 0 := w2
  refine ⟨?_, ?_, w1, ?_, ?_, w2⟩
  · rw [e1]; rfl
  · rw [e1]
    show countTrigs (Event.check _ :: Event.trigger _ ::
      (wait_for_file env (profile_path handle) 20 10).2) = 1
    simp [countTrigs, List.countP_cons, isTrig, w1']
  · rw [e2]; rfl
  · rw [e2]
    show countTrigs (Event.check _ :: Event.trigger _ ::
      (wait_for_file env (search_path query page) 2 20).2) = 1
    simp [countTrigs, List.countP_cons, isTrig, w2']

/-- Witness for C3 at the empty store. -/
theorem trigger_once_ordering_witness :
    hasFresh (fun _ => none) (profile_path "a") 20 = false
    ∧ hasFresh (fun _ => none) (search_path "q" 1) 2 = false
    ∧ (scrape_linkedin_profile (fun _ _ => none) (fun _ => none) "a").2
        = Event.check (profile_path "a") :: Event.trigger (profile_url "a")
            :: (wait_for_file (fun _ _ => none) (profile_path "a") 20 10).2
    ∧ countTrigs (scrape_linkedin_profile (fun _ _ => none) (fun _ => none) "a").2 = 1 := by
  have h := trigger_once_ordering (fun _ _ => none) (fun _ => none) "a" "q" 1 rfl rfl
  exact ⟨rfl, rfl, h.1, h.2.1⟩

theorem pollCheck_some_iff (fs : FS) (p : String) (m : Nat) (c : String) :
    pollCheck fs p m = some c ↔ fs p = some c ∧ m ≤ lineCount c := by
  unfold pollCheck
  cases hp : fs p with
  | none => simp
  | some d =>
    show (if lineCount d < m then none else some d) = some c
      ↔ some d = some c ∧ m ≤ lineCount c
    by_cases hd : lineCount d < m
    · rw [if_pos hd]
      constructor
      · intro h; simp at h
      · rintro ⟨hdc, hm⟩
        have hdc2 : d = c := by injection hdc
        subst hdc2
        omega
    · rw [if_neg hd]
      constructor
      · intro h
        have hdc : d = c := by injection h
        subst hdc
        exact ⟨rfl, by omega⟩
      · rintro ⟨hdc, hm⟩
        exact hdc

theorem hasFresh_true_iff (fs : FS) (p : String) (m : Nat) :
    hasFresh fs p m = true ↔ ∃ c, fs p = some c ∧ m ≤ lineCount c := by
  unfold hasFresh
  constructor
  · intro h
    cases hc : pollCheck fs p m with
    | none => rw [hc] at h; simp at h
    | some c => exact ⟨c, (pollCheck_some_iff fs p m c).mp hc⟩
  · rintro ⟨c, hfs, hm⟩
    rw [(pollCheck_some_iff fs p m c).mpr ⟨hfs, hm⟩]
    rfl

/-- Claim C4 (counterexample): freshness does NOT count only non-empty
lines.  The content `"a\n\nb"` has three lines after trimming, of which
only two are non-empty; at threshold `min_lines = 3` the code judges it
fresh (`len("a\n\nb".strip().splitlines()) = 3 >= 3`) — both in the check
predicate and in the poll loop, which returns the content instead of timing
out — while the predicate claimed in the spec (at least three NON-EMPTY
lines) rejects it. -/
theorem freshness_nonempty_counterexample :
    hasFresh (fun q => if q = "k" then some "a\n\nb" else none) "k" 3 = true
    ∧ spec_has_fresh (fun q => if q = "k" then some "a\n\nb" else none) "k" 3 = false
    ∧ lineCount "a\n\nb" = 3
    ∧ ((pySplitlines (pyStrip ("a\n\nb").data)).filter (fun l => !l.isEmpty)).length = 2
    ∧ (wait_for_file (fun _ q => if q = "k" then some "a\n\nb" else none) "k" 3 10).1
        = "a\n\nb" := by
  refine ⟨by decide, by decide, by decide, by decide, ?_⟩
  show (wait_go (fun _ q => if q = "k" then some "a\n\nb" else none) "k" 3 10 0 0).1
    = "a\n\nb"
  rw [wait_go_hit (fun _ q => if q = "k" then some "a\n\nb" else none) "k" 3 10 0 0
    (by decide) "a\n\nb" (by decide)]

/-- Claim C4 (amended): a cache entry counts as fresh if and only if the
entry exists and its content, after trimming leading and trailing
whitespace, has at least `min_lines` lines — counting ALL lines of the
trimmed content, interior empty lines included (Python
`len(result.strip().splitlines()) >= min_lines`), not only non-empty
lines — and this same predicate (`pollCheck`/`hasFresh`) decides the
initial cache check of both coordinators and every poll-loop re-check of
`wait_for_file`. -/
theorem freshness_predicate_amended :
    (∀ fs p m, hasFresh fs p m = true ↔ ∃ c, fs p = some c ∧ m ≤ lineCount c)
    ∧ (∀ fs p m c, pollCheck fs p m = some c ↔ fs p = some c ∧ m ≤ lineCount c)
    ∧ (∀ env fs0 handle c, pollCheck fs0 (profile_path handle) 20 = some c →
        scrape_linkedin_profile env fs0 handle
          = (c, [Event.check (profile_path handle)]))
    ∧ (∀ env fs0 handle, pollCheck fs0 (profile_path handle) 20 = none →
        scrape_linkedin_profile env fs0 handle
          = consTrig (wait_for_file env (profile_path handle) 20 10)
              (profile_path handle) (profile_url handle))
    ∧ (∀ env fs0 query page c, pollCheck fs0 (search_path query page) 2 = some c →
        search_linkedin_people env fs0 query page
          = (c, [Event.check (search_path query page)]))
    ∧ (∀ env fs0 query page, pollCheck fs0 (search_path query page) 2 = none →
        search_linkedin_people env fs0 query page
          = consTrig (wait_for_file env (search_path query page) 2 20)
              (search_path query page) (search_url query page))
    ∧ (∀ env p m (mw w : Int) i c, w < mw → pollCheck (env i) p m = some c →
        wait_go env p m mw w i = (c, [Event.sleep, Event.check p]))
    ∧ (∀ env p m (mw w : Int) i, w < mw → pollCheck (env i) p m = none →
        wait_go env p m mw w i = consTrace (wait_go env p m mw (w + 2) (i + 1)) p) :=
  ⟨hasFresh_true_iff, pollCheck_some_iff, scrape_hit, scrape_miss,
   search_hit, search_miss,
   fun env p m mw w i c h hc => wait_go_hit env p m mw w i h c hc,
   fun env p m mw w i h hc => wait_go_miss env p m mw w i h hc⟩

/-- Witness for the amended C4 at concrete stores. -/
theorem freshness_predicate_amended_witness :
    pollCheck (fun _ => none) (profile_path "a") 20 = none
    ∧ scrape_linkedin_profile (fun _ _ => none) (fun _ => none) "a"
        = consTrig (wait_for_file (fun _ _ => none) (profile_path "a") 20 10)
            (profile_path "a") (profile_url "a")
    ∧ (hasFresh (fun _ => some "a\nb\nc") "k" 3 = true
        ↔ ∃ c, some "a\nb\nc" = some c ∧ 3 ≤ lineCount c) :=
  ⟨rfl,
   freshness_predicate_amended.2.2.2.1 (fun _ _ => none) (fun _ => none) "a" rfl,
   freshness_predicate_amended.1 (fun _ => some "a\nb\nc") "k" 3⟩

/-- Claim C5 (failing input, evaluated): the enumeration round-trip fails.
For the query `"a b"` (which contains a reserved URL character) at page 1,
`search_linkedin_people` derives the cache filename `a%20b_page1.txt`
(line 91); `list_linkedin_search_queries` decodes that name by stripping
only the `.txt` extension before URL-decoding (lines 160-165), which yields
`"a b_page1"`, not the original query `"a b"`: the `_page<n>` suffix added
at encoding time is never stripped at decoding time, even though the
URL-quoting itself does round-trip.  So enumeration over a store holding
this entry reports `"a b_page1"` instead of `"a b"`. -/
theorem enumeration_roundtrip_failing :
    search_filename "a b" 1 = "a%20b_page1.txt"
    ∧ (list_linkedin_search_queries ["a%20b_page1.txt"] 1 10).1 = ["a b_page1"]
    ∧ pyUnquote (pyQuote "a b") = "a b"
    ∧ "a b_page1" ≠ "a b" := by
  refine ⟨by decide, by decide, by decide, by decide⟩

theorem runSched_closed {α : Type} (ts : List (Nat × α)) :
    runSched ts = (maxRem ts, ts.map (fun t => t.2)) :=
  runSched_eq (maxRem ts) ts (le_refl _)

/-- Claim C6: batch orchestration (spec-modelled: the operation is absent
from `server.py`; only its test exercises it).  For every sequence of
handles, the batch runs one `scrape_linkedin_profile` Coordinator per list
element under the concurrent scheduler, yields exactly one result entry per
input element, in order, keyed by the caller-supplied handle and carrying
exactly the outcome of that handle's own independent Coordinator run (so a
sibling timing out or failing can neither cancel, change, nor lose it), and
the batch finishes after the LARGEST individual poll-sleep count — not the
sum — so no sibling delays another beyond the slowest member. -/
theorem batch_orchestration (envs : String → Nat → FS) (fs0 : FS)
    (handles : List String) :
    (scrape_multiple_linkedin_profiles envs fs0 handles).2
        = handles.map (fun h => (h, (scrape_linkedin_profile (envs h) fs0 h).1))
    ∧ (scrape_multiple_linkedin_profiles envs fs0 handles).1
        = (handles.map (fun h =>
            countSleeps (scrape_linkedin_profile (envs h) fs0 h).2)).foldr max 0 := by
  unfold scrape_multiple_linkedin_profiles
  rw [runSched_closed]
  constructor
  · simp [List.map_map, Function.comp]
  · show maxRem (handles.map (fun h =>
        (countSleeps (scrape_linkedin_profile (envs h) fs0 h).2,
         (h, (scrape_linkedin_profile (envs h) fs0 h).1)))) = _
    induction handles with
    | nil => rfl
    | cons h hs ih =>
      simp only [List.map_cons, List.foldr_cons, maxRem_cons]
      rw [ih]

/-- Claim C7: pagination bounds.  For every stored file list and 1-based
page `p` of non-negative size `s`, `list_linkedin_search_queries` returns
exactly the slice `[(p-1)*s, (p-1)*s + s)` of the undeduplicated, unsorted
decoded query list, and an out-of-range page yields the empty list (the
operation is a total function, so no error is possible). -/
theorem pagination_bounds (txt_files : List String) (page page_size : Int)
    (h1 : 1 ≤ page) (h2 : 0 ≤ page_size) :
    (list_linkedin_search_queries txt_files page page_size).1
      = ((decodeQueries txt_files).drop ((page - 1) * page_size).toNat).take
          page_size.toNat
    ∧ ((decodeQueries txt_files).length ≤ ((page - 1) * page_size).toNat →
        (list_linkedin_search_queries txt_files page page_size).1 = []) := by
  have hs : 0 ≤ (page - 1) * page_size := mul_nonneg (by omega) h2
  have key : (list_linkedin_search_queries txt_files page page_size).1
      = ((decodeQueries txt_files).drop ((page - 1) * page_size).toNat).take
          page_size.toNat := by
    show pySlice (decodeQueries txt_files) ((page - 1) * page_size)
      ((page - 1) * page_size + page_size) = _
    exact pySlice_nonneg _ _ _ hs h2
  refine ⟨key, fun hlen => ?_⟩
  rw [key, List.drop_eq_nil_of_le hlen]
  simp

/-- Witness for C7 on the 25-entry store of the specification example:
page 3 of size 10 returns the slice starting at index 20 (the 5 remaining
entries), and page 10 of size 10 is out of range and returns the empty
list. -/
theorem pagination_bounds_witness :
    (1 : Int) ≤ 3 ∧ (0 : Int) ≤ 10
    ∧ (list_linkedin_search_queries
        ((List.range 25).map (fun i => "q" ++ toString i ++ ".txt")) 3 10).1
      = ((decodeQueries ((List.range 25).map (fun i => "q" ++ toString i ++ ".txt"))).drop
          ((((3 : Int)) - 1) * 10).toNat).take ((10 : Int)).toNat
    ∧ (list_linkedin_search_queries
        ((List.range 25).map (fun i => "q" ++ toString i ++ ".txt")) 3 10).1.length = 5
    ∧ (decodeQueries ((List.range 25).map (fun i => "q" ++ toString i ++ ".txt"))).length
        ≤ ((((10 : Int)) - 1) * 10).toNat
    ∧ (list_linkedin_search_queries
        ((List.range 25).map (fun i => "q" ++ toString i ++ ".txt")) 10 10).1 = [] := by
  have hA := pagination_bounds
    ((List.range 25).map (fun i => "q" ++ toString i ++ ".txt")) 3 10
    (by decide) (by decide)
  have hB := pagination_bounds
    ((List.range 25).map (fun i => "q" ++ toString i ++ ".txt")) 10 10
    (by decide) (by decide)
  exact ⟨by decide, by decide, hA.1, by decide, by decide, hB.2 (by decide)⟩

/-- Claim C8: clear semantics and idempotence.  `clear_temp_cache` attempts
to delete every file of the directory listing in sweep order; it reports the
count of SUCCESSFUL deletions only, a per-file failure being swallowed,
not counted, and not stopping the sweep (the count equals the number of
successes over the whole list, whatever the failure pattern); when every
deletion succeeds every file is removed, the reported count is the nonzero
file count whenever entries existed, and a second call over the now-empty
directory reports zero; the operation is a total function, so neither call
can raise. -/
theorem clear_semantics_idempotence (files : List String) (ok : String → Bool) :
    ((clear_temp_cache files ok).1 = clearMsg ((files.filter ok).length)
      ∧ (clear_temp_cache files ok).2 = (files.filter ok).map Event.remove)
    ∧ (clear_temp_cache files (fun _ => true)).2 = files.map Event.remove
    ∧ (files ≠ [] →
        (clear_temp_cache files (fun _ => true)).1 = clearMsg files.length
        ∧ files.length ≠ 0)
    ∧ (clear_temp_cache [] ok).1 = clearMsg 0 := by
  have base : ∀ g : String → Bool, clear_temp_cache files g
      = (clearMsg ((files.filter g).length), (files.filter g).map Event.remove) := by
    intro g
    unfold clear_temp_cache
    rw [clear_sweep_eq]
  refine ⟨?_, ?_, ?_, rfl⟩
  · rw [base ok]
    exact ⟨rfl, rfl⟩
  · rw [base (fun _ => true)]
    show (files.filter (fun _ => true)).map Event.remove = files.map Event.remove
    simp
  · intro hne
    rw [base (fun _ => true)]
    constructor
    · show clearMsg ((files.filter (fun _ => true)).length) = clearMsg files.length
      simp
    · intro h0
      exact hne (List.length_eq_zero.mp h0)

/-- Witness for C8 on a one-file directory, with an all-failing and an
all-succeeding deletion pattern. -/
theorem clear_semantics_idempotence_witness :
    (["a.txt"] : List String) ≠ []
    ∧ (clear_temp_cache ["a.txt"] (fun _ => true)).1 = clearMsg 1
    ∧ (["a.txt"] : List String).length ≠ 0
    ∧ (clear_temp_cache ["a.txt"] (fun _ => false)).1 = clearMsg 0
    ∧ (clear_temp_cache [] (fun _ => false)).1 = clearMsg 0 := by
  have h := clear_semantics_idempotence ["a.txt"] (fun _ => false)
  have h3 := h.2.2.1 (by decide)
  exact ⟨by decide, h3.1, h3.2, h.1.1, h.2.2.2⟩

/-- Claim C9: coordinator frame property.  The coordinator operations
(`scrape_linkedin_profile`, `search_linkedin_people`, `wait_for_file`) and
the enumeration operation only read the cache store: their effect traces
contain no removal, and replaying any of their traces over any store leaves
it exactly as it was. -/
theorem coordinator_frame (env : Nat → FS) (fs0 fs : FS)
    (handle query p : String) (page mw : Int) (m : Nat)
    (txt_files : List String) (pg ps : Int) :
    countRemoves (scrape_linkedin_profile env fs0 handle).2 = 0
    ∧ applyTrace fs (scrape_linkedin_profile env fs0 handle).2 = fs
    ∧ countRemoves (search_linkedin_people env fs0 query page).2 = 0
    ∧ applyTrace fs (search_linkedin_people env fs0 query page).2 = fs
    ∧ countRemoves (wait_for_file env p m mw).2 = 0
    ∧ applyTrace fs (wait_for_file env p m mw).2 = fs
    ∧ countRemoves (list_linkedin_search_queries txt_files pg ps).2 = 0
    ∧ applyTrace fs (list_linkedin_search_queries txt_files pg ps).2 = fs := by
  have t1 := scrape_trace_readonly env fs0 handle
  have t2 := search_trace_readonly env fs0 query page
  have t3 := all_poll_readonly _ (wait_trace_poll env p m mw)
  exact ⟨all_readonly_removes _ t1, all_readonly_apply _ t1 fs,
    all_readonly_removes _ t2, all_readonly_apply _ t2 fs,
    all_readonly_removes _ t3, all_readonly_apply _ t3 fs,
    rfl, rfl⟩

/-- Claim C10: `wait_for_file` is total.  It is a total function whose poll
loop performs at most `ceil(max_wait / 2)` sleeps (the elapsed counter
rises by 2 per iteration), and for `max_wait <= 0` it returns the timeout
message immediately with an empty trace: no sleep and no file access. -/
theorem wait_for_file_total (env : Nat → FS) (p : String) (m : Nat) (mw : Int) :
    countSleeps (wait_for_file env p m mw).2 ≤ (mw.toNat + 1) / 2
    ∧ (mw ≤ 0 → wait_for_file env p m mw = (timeoutMsg p mw, [])) := by
  constructor
  · have h := wait_go_sleeps env p m (mw - 0).toNat mw 0 0 (le_refl _)
    simpa using h
  · intro h0
    exact wait_go_stop env p m mw 0 0 (by omega)

/-- Witness for C10 at a zero budget. -/
theorem wait_for_file_total_witness :
    countSleeps (wait_for_file (fun _ _ => none) "f" 1 0).2 ≤ ((0 : Int).toNat + 1) / 2
    ∧ (0 : Int) ≤ 0
    ∧ wait_for_file (fun _ _ => none) "f" 1 0 = (timeoutMsg "f" 0, []) := by
  have h := wait_for_file_total (fun _ _ => none) "f" 1 0
  exact ⟨h.1, by decide, h.2 (by decide)⟩
